import Mathlib

/-!
Verification development for the ModelArena repository (TypeScript).

The definitions below are a shallow embedding of the data model and the
algorithmic core of the source files:

* `src/components/BulkUploadZone.tsx` (here from `src/unnamed/part_000`):
  base-name matching of per-model file folders into aligned test cases.
* `src/utils/videoStitcher.ts`: side-by-side compositing of images/videos,
  with its error paths and object-URL lifecycle made explicit.
* `src/App.tsx` (`handleBatchExportZip`): sequential batch export to a zip.
* `src/components/ComparisonArena.tsx` (`src/unnamed/part_002`): seek
  broadcasting and the blind-mode shuffle.
* `src/components/SetupScreen.tsx` (`src/unnamed/part_001`) and
  `src/constants.ts`: the model-list size invariant.

JavaScript strings are embedded as Lean `String`, `File` objects by their
file names, records (JS objects) as association lists with distinct keys,
and browser effects (image/video decoding, canvas context acquisition,
blob encoding, the MediaRecorder) as explicit environment records.
Promise rejection / thrown exceptions are embedded as `Except` / `Option`.
-/

/-- From `src/types.ts`: `ModelConfig { id, name, color }`. -/
structure ModelConfig where
  id : String
  name : String
  color : String
deriving DecidableEq, Repr

/-- From `src/types.ts`: `MediaType = 'video' | 'image'`. -/
inductive MediaType where
  | video
  | image
deriving DecidableEq, Repr

/-- From `src/types.ts`: `VideoSource { modelId, file?, url?, name }`.
A `File` handle is embedded by its file name. -/
structure VideoSource where
  modelId : String
  file : Option String
  url : Option String
  name : String
deriving DecidableEq, Repr

/-- From `src/types.ts`: `TestCase { id, name, sources }`. -/
structure TestCase where
  id : String
  name : String
  sources : List VideoSource
deriving DecidableEq, Repr

/-- From `src/types.ts`: `VideoRating { score, isAmazing, note? }`.
The score 0 | 0.5 | 1 is embedded as twice the score, a natural number. -/
structure VideoRating where
  scoreTimesTwo : Nat
  isAmazing : Bool
  note : Option String
deriving DecidableEq, Repr

/-- From `src/types.ts`: `VoteResult`; `ratings` is a JS record embedded as
an association list and `winnerModelId : string | 'TIE'` keeps the string. -/
structure VoteResult where
  caseId : String
  caseName : String
  timestamp : Nat
  winnerModelId : String
  ratings : List (String × VideoRating)
  duration : Option Nat
  isRepresentative : Bool
deriving DecidableEq, Repr

/-! ## CaseMatcher (BulkUploadZone) -/

/-- The per-model uploaded files state of `BulkUploadZone`:
`Record<string, File[]>` embedded as an association list from model id to
the list of (valid) file names, with distinct keys. -/
abbrev FileRecord := List (String × List String)

/-- Scans the reversed characters of a file name for the JS regex
`\.[^/.]+$`: a dot followed by one or more characters none of which is a
dot or a slash, at the end of the string. Returns the (reversed) remaining
base name when the regex matches, `none` otherwise. `n` counts the
extension characters consumed so far. -/
def chopExtRev : List Char → Nat → Option (List Char)
  | [], _ => none
  | c :: rest, n =>
    if c = '.' then (if 0 < n then some rest else none)
    else if c = '/' then none
    else chopExtRev rest (n + 1)

/-- From `BulkUploadZone`: `getBaseName(filename) = filename.replace(/\.[^/.]+$/, "")`
removes the trailing extension so that `x.mp4` matches `x.webm`. -/
def getBaseName (filename : String) : String :=
  match chopExtRev filename.data.reverse 0 with
  | some base => String.mk base.reverse
  | none => filename

/-- JS `modelFiles[key] || []`: association-list lookup defaulting to the
empty list. -/
def jsIndex (mf : FileRecord) (key : String) : List String :=
  (mf.lookup key).getD []

/-- From the `matches` memo of `BulkUploadZone`: the body of
`models.every(m => m.id === models[0].id ? true : modelFiles[m.id]?.some(f => getBaseName(f.name) === baseName))`.
The optional chaining on a missing key yields `undefined`, i.e. `false`. -/
def existsInAll (models : List ModelConfig) (m0 : ModelConfig) (mf : FileRecord)
    (baseName : String) : Bool :=
  models.all fun m =>
    m.id == m0.id || (jsIndex mf m.id).any fun f => getBaseName f == baseName

/-- The `forEach` loop of the `matches` memo: walk the first model files,
skip base names already in the `processedBaseNames` set (`processed`), and
push the base names that exist in all other models, in first-file order. -/
def collectCommon (models : List ModelConfig) (m0 : ModelConfig) (mf : FileRecord) :
    List String → List String → List String
  | _, [] => []
  | processed, file :: rest =>
    if getBaseName file ∈ processed then collectCommon models m0 mf processed rest
    else if existsInAll models m0 mf (getBaseName file) then
      getBaseName file :: collectCommon models m0 mf (getBaseName file :: processed) rest
    else collectCommon models m0 mf (getBaseName file :: processed) rest

/-- Insert a string into a lexicographically sorted list. -/
def insertSorted (x : String) : List String → List String
  | [] => [x]
  | y :: ys => if x ≤ y then x :: y :: ys else y :: insertSorted x ys

/-- JS `Array.prototype.sort()` with no comparator on an array of strings:
lexicographic string sort (embedded as insertion sort; any comparison sort
yields the same list on a totally ordered element type). -/
def sortStrings (l : List String) : List String :=
  l.foldr insertSorted []

/-- From `BulkUploadZone`, the `matches` memo, including its guard
`if (uploadedModelIds.length < models.length) return []`. After the guard,
`models[0].id` is evaluated; on an empty model list this is a JS
`TypeError` (reading `.id` of `undefined`), embedded as `none`. -/
def matchesE (models : List ModelConfig) (mf : FileRecord) : Option (List String) :=
  if mf.length < models.length then some []
  else
    match models with
    | [] => none
    | m0 :: _ => some (sortStrings (collectCommon models m0 mf [] (jsIndex mf m0.id)))

/-- From `BulkUploadZone`:
`isReady = matches.length > 0 && Object.keys(modelFiles).length === models.length`,
propagating the (unreachable-in-the-UI) exception of `matchesE`. -/
def isReadyE (models : List ModelConfig) (mf : FileRecord) : Option Bool :=
  (matchesE models mf).map fun ms => decide (0 < ms.length) && (mf.length == models.length)

/-- From `handleStart` of `BulkUploadZone`: the `queue` built from the
sorted match list `ms`. Each case takes the first file of each model whose
base name equals the matched base name (`.find`), keeping the original
file name when found and falling back to the base name otherwise. -/
def buildQueue (models : List ModelConfig) (mf : FileRecord) (ms : List String) :
    List TestCase :=
  ms.enum.map fun p =>
    let sources := models.map fun m =>
      let file := (jsIndex mf m.id).find? fun f => getBaseName f == p.2
      { modelId := m.id, file := file, url := none, name := file.getD p.2 : VideoSource }
    { id := "case-" ++ toString p.1, name := p.2, sources := sources }

/-- From `handleStart`: the guard `if (matches.length === 0) return;` means
the evaluation queue is only emitted when the match list is non-empty. -/
def handleStart (models : List ModelConfig) (mf : FileRecord) (ms : List String) :
    Option (List TestCase) :=
  if ms.length = 0 then none else some (buildQueue models mf ms)

/-! ## CompositeRenderer (src/utils/videoStitcher.ts)

`stitchMedia` is embedded as a function of the sources plus an explicit
browser environment: the per-source decode outcome (natural/video
dimensions on success, `none` on a load error), canvas 2d-context
acquisition, `canvas.toBlob` success, and MediaRecorder availability.
The returned record carries the settled promise (`Except`) together with
the object URLs the call created and revoked, indexed by source position:
`URL.createObjectURL(src.file)` runs for every file-backed source when the
load promises are built, before any of them settles. -/

/-- Composite artifact: the canvas geometry plus the chosen extension
(`{ blob, extension }` in the source, with the blob abstracted to the
dimensions of the canvas it encodes). -/
structure Artifact where
  width : Nat
  height : Nat
  extension : String
deriving DecidableEq, Repr

/-- Browser environment of one `stitchMedia` call. -/
structure StitchEnv where
  loads : List (Option (Nat × Nat))
  ctxOk : Bool
  blobOk : Bool
  recorderOk : Bool
  isTypeSupported : String → Bool

/-- Outcome of one `stitchMedia` call: the settled promise plus the
created and revoked object URLs (as source indices). -/
structure StitchRun where
  result : Except String Artifact
  created : List Nat
  revoked : List Nat

/-- Indices of the sources for which `URL.createObjectURL` runs (those
with a local `file`; URL sources pass through). -/
def urlIndices (sources : List VideoSource) : List Nat :=
  (sources.enum.filter fun p => p.2.file.isSome).map Prod.fst

/-- `Promise.all` over the per-source load promises: resolves with the
dimension list when every source decodes, rejects with the error of a
failing source otherwise (determinized here to the first in index order). -/
def loadAll (kind : String) : List (VideoSource × Option (Nat × Nat)) →
    Except String (List (Nat × Nat))
  | [] => .ok []
  | (src, none) :: _ => .error ("Failed to load " ++ kind ++ ": " ++ src.name)
  | (_, some d) :: rest => (loadAll kind rest).map fun ds => d :: ds

/-- The ordered mime preference list of the video path. -/
def mimeTypes : List String :=
  ["video/mp4", "video/mp4;codecs=avc1", "video/mp4;codecs=h264",
   "video/webm;codecs=h264", "video/webm;codecs=vp9", "video/webm"]

/-- JS `String.prototype.includes`. -/
def jsIncludes (s sub : String) : Bool :=
  decide ((s.splitOn sub).length ≠ 1)

/-- True exactly on the `.error` constructor of the settled promise. -/
def exceptIsError (e : Except String Artifact) : Bool :=
  match e with
  | .error _ => true
  | .ok _ => false

/-- The body of `stitchMedia` from `src/utils/videoStitcher.ts`. Both modes
share the empty-source guard; each mode decodes all sources (`Promise.all`),
computes `totalWidth` as the sum of the widths and `maxHeight` as
`Math.max(...heights) || 720` (the JS `||` replaces a zero maximum by 720),
requires a 2d context, and encodes. Object URLs are revoked only inside
the success callbacks (`canvas.toBlob` callback / `recorder.onstop`). -/
def stitchMedia (sources : List VideoSource) (models : List ModelConfig)
    (mediaType : MediaType) (env : StitchEnv) : StitchRun :=
  if sources.length = 0 then ⟨.error "No sources provided", [], []⟩
  else
    match mediaType with
    | .image =>
      let created := urlIndices sources
      match loadAll "image" (sources.zip env.loads) with
      | .error e => ⟨.error e, created, []⟩
      | .ok dims =>
        let totalWidth := (dims.map Prod.fst).sum
        let maxRaw := (dims.map Prod.snd).foldr Nat.max 0
        let maxHeight := if maxRaw = 0 then 720 else maxRaw
        if !env.ctxOk then ⟨.error "Canvas context failed", created, []⟩
        else if env.blobOk then
          ⟨.ok ⟨totalWidth, maxHeight, "png"⟩, created, created⟩
        else ⟨.error "Failed to create image blob", created, []⟩
    | .video =>
      let created := urlIndices sources
      match loadAll "video" (sources.zip env.loads) with
      | .error e => ⟨.error e, created, []⟩
      | .ok dims =>
        let totalWidth := (dims.map Prod.fst).sum
        let maxRaw := (dims.map Prod.snd).foldr Nat.max 0
        let maxHeight := if maxRaw = 0 then 720 else maxRaw
        if !env.ctxOk then ⟨.error "Could not get canvas context", created, []⟩
        else
          let selected := (mimeTypes.find? env.isTypeSupported).getD "video/webm"
          let extension := if jsIncludes selected "mp4" then "mp4" else "webm"
          if env.recorderOk then
            ⟨.ok ⟨totalWidth, maxHeight, extension⟩, created, created⟩
          else ⟨.error "Recording failed", created, []⟩

/-- The dimensions of the successfully decoded sources of a call: the
decode outcomes paired with the sources, successes only. When every
source decodes, these are exactly the dimensions `stitchMedia` lays out. -/
def loadedDims (sources : List VideoSource) (env : StitchEnv) : List (Nat × Nat) :=
  (sources.zip env.loads).filterMap Prod.snd

/-! ## BatchExporter (handleBatchExportZip in src/App.tsx) -/

/-- Observable outcome of `handleBatchExportZip`: the `zipProgress`
messages in emission order, the entries added to the in-memory zip, the
archive offered for download (`none` when the download never happens) and
the number of failure alerts shown. -/
structure BatchRun where
  progress : List String
  entries : List String
  downloaded : Option (List String)
  alerts : Nat
deriving DecidableEq, Repr

/-- The `for` loop of `handleBatchExportZip`: for each representative
result, look its case up in the queue (silently skipping a missing one),
emit the progress message, await `stitchMedia`, and add the artifact under
the deterministic name; a rejection is caught by the outer handler which
shows exactly one alert, so nothing further runs and no download happens. -/
def batchLoop (models : List ModelConfig) (mediaType : MediaType)
    (queue : List TestCase) (envs : Nat → StitchEnv) :
    List VoteResult → Nat → Nat → List String → List String → BatchRun
  | [], _, _, prog, acc => ⟨prog, acc, some acc, 0⟩
  | r :: rest, i, total, prog, acc =>
    match queue.find? fun c => c.id == r.caseId with
    | none => batchLoop models mediaType queue envs rest (i + 1) total prog acc
    | some tc =>
      let prog := prog ++
        ["Processing " ++ toString (i + 1) ++ "/" ++ toString total ++ ": " ++ tc.name]
      match (stitchMedia tc.sources models mediaType (envs i)).result with
      | .error _ => ⟨prog, acc, none, 1⟩
      | .ok art =>
        batchLoop models mediaType queue envs rest (i + 1) total prog
          (acc ++ [getBaseName tc.name ++ "_comparison." ++ art.extension])

/-- From `src/App.tsx`: filter the vote history down to the representative
results, return immediately when there are none, otherwise run the
sequential loop (the archive is generated and offered only after the loop
finishes without a rejection). -/
def handleBatchExportZip (voteHistory : List VoteResult) (queue : List TestCase)
    (models : List ModelConfig) (mediaType : MediaType) (envs : Nat → StitchEnv) :
    BatchRun :=
  let repCases := voteHistory.filter fun r => r.isRepresentative
  if repCases.length = 0 then ⟨[], [], none, 0⟩
  else batchLoop models mediaType queue envs repCases 0 repCases.length [] []

/-! ## Video recording frame loop (drawFrame in videoStitcher.ts) -/

/-- State of the recording loop: whether the recorder is still in the
`recording` state, whether `recorder.stop()` has been called (finalizing
the artifact), and the index of the next frame to draw. -/
structure RecState where
  recording : Bool
  stopped : Bool
  frame : Nat
deriving DecidableEq, Repr

/-- `videos.every(v => v.ended)` at one drawn frame. -/
def allEnded (ended : List Bool) : Bool :=
  ended.all id

/-- One call of `drawFrame`: after drawing every video onto the canvas, if
the recorder is still recording then either stop it (when every source
video has ended) or re-schedule itself via `requestAnimationFrame`. The
per-frame end-of-stream status of the sources is the trace `endedAt`. -/
def drawFrameStep (endedAt : Nat → List Bool) (s : RecState) : RecState :=
  if s.recording then
    if allEnded (endedAt s.frame) then { s with recording := false, stopped := true }
    else { s with frame := s.frame + 1 }
  else s

/-- The recording run: `recorder.start()` happens before the first
`drawFrame` call, so frame 0 is drawn with the recorder recording. -/
def runFrames (endedAt : Nat → List Bool) : Nat → RecState
  | 0 => ⟨true, false, 0⟩
  | n + 1 => drawFrameStep endedAt (runFrames endedAt n)

/-! ## TransportController pieces (ComparisonArena, src/unnamed/part_002) -/

/-- Playback state of the arena transport: the reported current time and
the per-element clocks, in seconds, embedded as rationals. -/
structure ArenaPlayback where
  currentTime : Rat
  videoTimes : List Rat
deriving DecidableEq, Repr

/-- Mathematical clamp of a time into an interval. -/
def clampTime (t lo hi : Rat) : Rat :=
  max lo (min t hi)

/-- From `handleSeek` of `ComparisonArena`: in video mode the parsed
requested time is stored as the reported current time and assigned to
every video element verbatim; in image mode the handler returns at once. -/
def handleSeek (mediaType : MediaType) (t : Rat) (s : ArenaPlayback) : ArenaPlayback :=
  match mediaType with
  | .image => s
  | .video => { currentTime := t, videoTimes := s.videoTimes.map fun _ => t }

/-! ## Blind-mode shuffle (ComparisonArena)

The source computes `[...models].sort(() => Math.random() - 0.5)` on each
case transition. `Array.prototype.sort` with an inconsistent comparator is
implementation-defined; it is modelled here as the insertion sort major
engines use for short arrays (N is at most 5), with every comparator call
an independent fair coin: `Math.random() - 0.5` is positive (shift the
scanned element right) or negative (stop) with probability one half each.
Coins are consumed from an explicit stream so that the distribution over
permutations is the counting measure over streams. -/

/-- Insert `el` into the reversed sorted prefix (head is the rightmost
element), consuming one coin per comparator call: a `true` coin
(comparator positive) shifts the scanned element right of `el` and keeps
scanning, a `false` coin places `el` to its right. An exhausted stream
behaves like a negative comparator. -/
def insertRevCoins (el : Nat) : List Nat → List Bool → List Nat × List Bool
  | [], cs => ([el], cs)
  | y :: ys, [] => (el :: y :: ys, [])
  | y :: ys, c :: cs =>
    if c then
      let r := insertRevCoins el ys cs
      (y :: r.1, r.2)
    else (el :: y :: ys, cs)

/-- Insertion sort driven by the coin stream (the first element is placed
without a comparison, as in the engine loop starting at index 1). -/
def insertionSortCoins (coins : List Bool) (l : List Nat) : List Nat :=
  (l.foldl (fun acc el =>
    let r := insertRevCoins el acc.1 acc.2
    (r.1, r.2)) (([] : List Nat), coins)).1.reverse

/-- The blind-mode shuffle `[...models].sort(() => Math.random() - 0.5)`
under the coin stream `coins`, on variants named by their index. -/
def blindShuffle (coins : List Bool) (l : List Nat) : List Nat :=
  insertionSortCoins coins l

/-- All coin streams of length `n`, each equally likely. -/
def allStreams : Nat → List (List Bool)
  | 0 => [[]]
  | n + 1 => (allStreams n).flatMap fun s => [true :: s, false :: s]

/-! ## SetupScreen and constants (src/unnamed/part_001, src/constants.ts) -/

/-- From `src/constants.ts`. -/
def MAX_MODELS : Nat := 5

/-- From `src/constants.ts`. -/
def MIN_MODELS : Nat := 2

/-- From `src/constants.ts`. -/
def MODEL_COLORS : List String :=
  ["#6366f1", "#ec4899", "#10b981", "#f59e0b", "#3b82f6"]

/-- The initial model list of `SetupScreen`. -/
def initialModels : List ModelConfig :=
  [⟨"m1", "Baseline (v1.0)", MODEL_COLORS.getD 0 ""⟩,
   ⟨"m2", "Experimental (v1.1)", MODEL_COLORS.getD 1 ""⟩]

/-- From `SetupScreen.addModel`: append a fresh model (id from
`Date.now()`, name from the letter at the current length) only while the
list is below `MAX_MODELS`. -/
def addModel (ms : List ModelConfig) (now : Nat) : List ModelConfig :=
  if ms.length < MAX_MODELS then
    ms ++ [⟨"m" ++ toString now,
           "Model " ++ String.mk [Char.ofNat (65 + ms.length)],
           MODEL_COLORS.getD (ms.length % MODEL_COLORS.length) ""⟩]
  else ms

/-- From `SetupScreen.removeModel`: `splice(index, 1)` only while the list
is above `MIN_MODELS` (an out-of-range index removes nothing, as in JS). -/
def removeModel (ms : List ModelConfig) (i : Nat) : List ModelConfig :=
  if MIN_MODELS < ms.length then ms.take i ++ ms.drop (i + 1) else ms

/-- From `SetupScreen.updateName` (renamed here to avoid a clash): overwrite the name at an index. -/
def updateModelName (ms : List ModelConfig) (i : Nat) (newName : String) : List ModelConfig :=
  match ms.get? i with
  | some m => ms.set i { m with name := newName }
  | none => ms

/-- The operations the setup screen can perform on the model list. -/
inductive SetupOp where
  | add (now : Nat)
  | remove (i : Nat)
  | rename (i : Nat) (newName : String)
deriving DecidableEq, Repr

/-- Apply one setup operation. -/
def applyOp (ms : List ModelConfig) : SetupOp → List ModelConfig
  | .add now => addModel ms now
  | .remove i => removeModel ms i
  | .rename i n => updateModelName ms i n

/-- The model list after a sequence of setup operations, starting from the
initial two models. -/
def applyOps (ops : List SetupOp) : List ModelConfig :=
  ops.foldl applyOp initialModels

/-! ## Helper lemmas: sorting -/

theorem mem_insertSorted (x a : String) (l : List String) :
    a ∈ insertSorted x l ↔ a = x ∨ a ∈ l := by
  induction l with
  | nil => simp [insertSorted]
  | cons y ys ih =>
    by_cases hxy : x ≤ y
    · rw [insertSorted, if_pos hxy]
      simp [List.mem_cons]
    · rw [insertSorted, if_neg hxy]
      simp only [List.mem_cons, ih]
      tauto

theorem sorted_insertSorted (x : String) (l : List String)
    (h : l.Sorted (· ≤ ·)) : (insertSorted x l).Sorted (· ≤ ·) := by
  induction l with
  | nil => simp [insertSorted]
  | cons y ys ih =>
    rcases List.sorted_cons.mp h with ⟨hy, hys⟩
    by_cases hxy : x ≤ y
    · rw [insertSorted, if_pos hxy]
      refine List.sorted_cons.mpr ⟨?_, h⟩
      intro b hb
      rcases List.mem_cons.mp hb with h1 | h2
      · exact h1 ▸ hxy
      · exact le_trans hxy (hy b h2)
    · rw [insertSorted, if_neg hxy]
      refine List.sorted_cons.mpr ⟨?_, ih hys⟩
      intro b hb
      rcases (mem_insertSorted x b ys).mp hb with h1 | h2
      · exact h1 ▸ le_of_not_le hxy
      · exact hy b h2

theorem sorted_sortStrings (l : List String) : (sortStrings l).Sorted (· ≤ ·) := by
  induction l with
  | nil => exact List.sorted_nil
  | cons x xs ih => exact sorted_insertSorted x _ ih

theorem mem_sortStrings (a : String) (l : List String) : a ∈ sortStrings l ↔ a ∈ l := by
  induction l with
  | nil => simp [sortStrings]
  | cons x xs ih =>
    show a ∈ insertSorted x (sortStrings xs) ↔ _
    rw [mem_insertSorted, ih]
    exact (List.mem_cons).symm

theorem perm_insertSorted (x : String) (l : List String) :
    List.Perm (insertSorted x l) (x :: l) := by
  induction l with
  | nil => rfl
  | cons y ys ih =>
    by_cases hxy : x ≤ y
    · rw [insertSorted, if_pos hxy]
    · rw [insertSorted, if_neg hxy]
      exact List.Perm.trans (List.Perm.cons y ih) (List.Perm.swap x y ys)

theorem perm_sortStrings (l : List String) : List.Perm (sortStrings l) l := by
  induction l with
  | nil => rfl
  | cons x xs ih =>
    exact List.Perm.trans (perm_insertSorted x (sortStrings xs)) (List.Perm.cons x ih)

theorem nodup_sortStrings (l : List String) (h : l.Nodup) : (sortStrings l).Nodup :=
  (perm_sortStrings l).nodup_iff.mpr h

/-! ## Helper lemmas: the matcher loop -/

theorem mem_collectCommon (models : List ModelConfig) (m0 : ModelConfig)
    (mf : FileRecord) (b : String) :
    ∀ (processed l : List String),
      (b ∈ collectCommon models m0 mf processed l ↔
        b ∉ processed ∧ existsInAll models m0 mf b = true ∧
          ∃ f ∈ l, getBaseName f = b) := by
  intro processed l
  induction l generalizing processed with
  | nil => simp [collectCommon]
  | cons file rest ih =>
    by_cases hmem : getBaseName file ∈ processed
    · rw [collectCommon, if_pos hmem, ih]
      constructor
      · rintro ⟨hnp, hq, f, hf, hbf⟩
        exact ⟨hnp, hq, f, List.mem_cons_of_mem _ hf, hbf⟩
      · rintro ⟨hnp, hq, f, hf, hbf⟩
        rcases List.mem_cons.mp hf with rfl | hf'
        · exact absurd (hbf ▸ hmem) hnp
        · exact ⟨hnp, hq, f, hf', hbf⟩
    · rw [collectCommon, if_neg hmem]
      by_cases hq : existsInAll models m0 mf (getBaseName file) = true
      · rw [if_pos hq, List.mem_cons, ih]
        constructor
        · rintro (rfl | ⟨hnp, hq2, f, hf, hbf⟩)
          · exact ⟨hmem, hq, file, List.mem_cons_self _ _, rfl⟩
          · exact ⟨fun hb => hnp (List.mem_cons_of_mem _ hb), hq2, f,
              List.mem_cons_of_mem _ hf, hbf⟩
        · rintro ⟨hnp, hq2, f, hf, hbf⟩
          rcases List.mem_cons.mp hf with rfl | hf'
          · exact Or.inl hbf.symm
          · by_cases hbfile : b = getBaseName file
            · exact Or.inl hbfile
            · exact Or.inr ⟨fun hb => (List.mem_cons.mp hb).elim hbfile hnp,
                hq2, f, hf', hbf⟩
      · rw [if_neg hq, ih]
        constructor
        · rintro ⟨hnp, hq2, f, hf, hbf⟩
          exact ⟨fun hb => hnp (List.mem_cons_of_mem _ hb), hq2, f,
            List.mem_cons_of_mem _ hf, hbf⟩
        · rintro ⟨hnp, hq2, f, hf, hbf⟩
          rcases List.mem_cons.mp hf with rfl | hf'
          · exact absurd (hbf ▸ hq2) hq
          · by_cases hbfile : b = getBaseName file
            · exact absurd (hbfile ▸ hq2) hq
            · exact ⟨fun hb => (List.mem_cons.mp hb).elim hbfile hnp, hq2, f, hf', hbf⟩

theorem nodup_collectCommon (models : List ModelConfig) (m0 : ModelConfig)
    (mf : FileRecord) :
    ∀ (processed l : List String), (collectCommon models m0 mf processed l).Nodup := by
  intro processed l
  induction l generalizing processed with
  | nil => simp [collectCommon]
  | cons file rest ih =>
    by_cases hmem : getBaseName file ∈ processed
    · rw [collectCommon, if_pos hmem]; exact ih processed
    · rw [collectCommon, if_neg hmem]
      by_cases hq : existsInAll models m0 mf (getBaseName file) = true
      · rw [if_pos hq]
        refine List.nodup_cons.mpr ⟨?_, ih _⟩
        intro hb
        exact ((mem_collectCommon models m0 mf _ _ rest).mp hb).1
          (List.mem_cons_self _ _)
      · rw [if_neg hq]; exact ih _

/-! ## Helper lemmas: association lists and counting -/

theorem mem_keys_of_lookup_isSome (mf : FileRecord) (k : String)
    (h : (mf.lookup k).isSome) : k ∈ mf.map Prod.fst := by
  induction mf with
  | nil => simp [List.lookup] at h
  | cons p rest ih =>
    rw [List.lookup] at h
    cases hk : k == p.1 with
    | true => simp [beq_iff_eq.mp hk]
    | false => rw [hk] at h; exact List.mem_cons_of_mem _ (ih h)

theorem lookup_isSome_of_mem_keys (mf : FileRecord) (k : String)
    (h : k ∈ mf.map Prod.fst) : (mf.lookup k).isSome := by
  induction mf with
  | nil => simp at h
  | cons p rest ih =>
    rw [List.lookup]
    cases hk : k == p.1 with
    | true => simp
    | false =>
      show (List.lookup k rest).isSome
      apply ih
      rcases List.mem_cons.mp h with h1 | h2
      · exact absurd (beq_iff_eq.mpr h1) (by simp [hk])
      · exact h2

theorem models_length_le_record (models : List ModelConfig) (mf : FileRecord)
    (hids : (models.map fun m => m.id).Nodup)
    (hall : ∀ m ∈ models, (mf.lookup m.id).isSome) :
    models.length ≤ mf.length := by
  have hsub : (models.map fun m => m.id).toFinset ⊆ (mf.map Prod.fst).toFinset := by
    intro x hx
    rw [List.mem_toFinset] at hx ⊢
    rcases List.mem_map.mp hx with ⟨m, hm, rfl⟩
    exact mem_keys_of_lookup_isSome mf m.id (hall m hm)
  calc models.length
      = (models.map fun m => m.id).length := (List.length_map _ _).symm
    _ = (models.map fun m => m.id).toFinset.card := (List.toFinset_card_of_nodup hids).symm
    _ ≤ (mf.map Prod.fst).toFinset.card := Finset.card_le_card hsub
    _ ≤ (mf.map Prod.fst).length := List.toFinset_card_le _
    _ = mf.length := List.length_map _ _

theorem record_count_iff (models : List ModelConfig) (mf : FileRecord)
    (hids : (models.map fun m => m.id).Nodup)
    (hkeys : (mf.map Prod.fst).Nodup)
    (hsub : ∀ k ∈ mf.map Prod.fst, k ∈ models.map fun m => m.id) :
    mf.length = models.length ↔ ∀ m ∈ models, (mf.lookup m.id).isSome := by
  have hsubF : (mf.map Prod.fst).toFinset ⊆ (models.map fun m => m.id).toFinset := by
    intro x hx
    rw [List.mem_toFinset] at hx ⊢
    exact hsub x hx
  constructor
  · intro hlen m hm
    have hcard : ((models.map fun m => m.id).toFinset).card ≤
        ((mf.map Prod.fst).toFinset).card := by
      rw [List.toFinset_card_of_nodup hids, List.toFinset_card_of_nodup hkeys,
        List.length_map, List.length_map, hlen]
    have heq := Finset.eq_of_subset_of_card_le hsubF hcard
    apply lookup_isSome_of_mem_keys
    rw [← List.mem_toFinset, heq, List.mem_toFinset]
    exact List.mem_map.mpr ⟨m, hm, rfl⟩
  · intro hall
    have hsubF2 : (models.map fun m => m.id).toFinset ⊆ (mf.map Prod.fst).toFinset := by
      intro x hx
      rw [List.mem_toFinset] at hx ⊢
      rcases List.mem_map.mp hx with ⟨m, hm, rfl⟩
      exact mem_keys_of_lookup_isSome mf m.id (hall m hm)
    have heq : (mf.map Prod.fst).toFinset = (models.map fun m => m.id).toFinset :=
      Finset.Subset.antisymm hsubF hsubF2
    have := congrArg Finset.card heq
    rw [List.toFinset_card_of_nodup hids, List.toFinset_card_of_nodup hkeys,
      List.length_map, List.length_map] at this
    exact this

theorem existsInAll_iff (models : List ModelConfig) (m0 : ModelConfig)
    (mf : FileRecord) (b : String)
    (hfirst : ∃ f ∈ jsIndex mf m0.id, getBaseName f = b) :
    existsInAll models m0 mf b = true ↔
      ∀ m ∈ models, ∃ g ∈ jsIndex mf m.id, getBaseName g = b := by
  rw [existsInAll, List.all_eq_true]
  constructor
  · intro h m hm
    have hmb := h m hm
    simp only [Bool.or_eq_true, beq_iff_eq, List.any_eq_true] at hmb
    rcases hmb with hid | ⟨g, hg, hgb⟩
    · rw [hid]; exact hfirst
    · exact ⟨g, hg, hgb⟩
  · intro h m hm
    simp only [Bool.or_eq_true, beq_iff_eq, List.any_eq_true]
    rcases h m hm with ⟨g, hg, hgb⟩
    exact Or.inr ⟨g, hg, hgb⟩

/-- C1. Matcher correctness: for every per-variant assignment of file
lists in which every configured variant has a list (`hall`), the matcher
output is computed without error and its case names are exactly the
lexicographically sorted base names (extension stripped, case-sensitive)
occurring in the first variant list and in every other variant list, one
case per duplicated base name; and the test case built for a qualifying
base name assigns to each variant the first file of that variant whose
base name equals it (keeping the original file name). -/
theorem C1_matcher_correctness (m0 : ModelConfig) (rest : List ModelConfig)
    (mf : FileRecord)
    (hids : ((m0 :: rest).map fun m => m.id).Nodup)
    (hall : ∀ m ∈ m0 :: rest, (mf.lookup m.id).isSome) :
    ∃ ms, matchesE (m0 :: rest) mf = some ms ∧
      ms.Sorted (· ≤ ·) ∧ ms.Nodup ∧
      (∀ b, b ∈ ms ↔
        ((∃ f ∈ jsIndex mf m0.id, getBaseName f = b) ∧
          ∀ m ∈ m0 :: rest, ∃ g ∈ jsIndex mf m.id, getBaseName g = b)) ∧
      (∀ i tc, (buildQueue (m0 :: rest) mf ms).get? i = some tc →
        ms.get? i = some tc.name ∧ tc.id = "case-" ++ toString i ∧
        ∀ j m, (m0 :: rest).get? j = some m →
          ∃ f, (jsIndex mf m.id).find? (fun g => getBaseName g == tc.name) = some f ∧
            tc.sources.get? j = some ⟨m.id, some f, none, f⟩) := by
  have hguard : ¬ mf.length < (m0 :: rest).length :=
    Nat.not_lt.mpr (models_length_le_record _ mf hids hall)
  have hmem : ∀ b,
      b ∈ sortStrings (collectCommon (m0 :: rest) m0 mf [] (jsIndex mf m0.id)) ↔
      ((∃ f ∈ jsIndex mf m0.id, getBaseName f = b) ∧
        ∀ m ∈ m0 :: rest, ∃ g ∈ jsIndex mf m.id, getBaseName g = b) := by
    intro b
    rw [mem_sortStrings, mem_collectCommon]
    constructor
    · rintro ⟨-, hq, f, hf, hbf⟩
      have hfirst : ∃ f ∈ jsIndex mf m0.id, getBaseName f = b := ⟨f, hf, hbf⟩
      exact ⟨hfirst, (existsInAll_iff _ m0 mf b hfirst).mp hq⟩
    · rintro ⟨⟨f, hf, hbf⟩, hallb⟩
      exact ⟨List.not_mem_nil b,
        (existsInAll_iff _ m0 mf b ⟨f, hf, hbf⟩).mpr hallb, f, hf, hbf⟩
  refine ⟨sortStrings (collectCommon (m0 :: rest) m0 mf [] (jsIndex mf m0.id)),
    ?_, sorted_sortStrings _,
    nodup_sortStrings _ (nodup_collectCommon _ _ _ _ _), hmem, ?_⟩
  · rw [matchesE, if_neg hguard]
  · intro i tc htc
    rw [buildQueue, List.get?_map, List.get?_enum] at htc
    cases hb : List.get?
        (sortStrings (collectCommon (m0 :: rest) m0 mf [] (jsIndex mf m0.id))) i with
    | none => rw [hb] at htc; simp at htc
    | some b =>
      rw [hb] at htc
      simp only [Option.map_some'] at htc
      have htc' := htc.symm
      cases htc'
      refine ⟨rfl, rfl, ?_⟩
      intro j m hm
      have hbmem : b ∈
          sortStrings (collectCommon (m0 :: rest) m0 mf [] (jsIndex mf m0.id)) :=
        List.get?_mem hb
      obtain ⟨g, hg, hgb⟩ := ((hmem b).mp hbmem).2 m (List.get?_mem hm)
      have hfind : ((jsIndex mf m.id).find? fun f => getBaseName f == b).isSome :=
        List.find?_isSome.mpr ⟨g, hg, beq_iff_eq.mpr hgb⟩
      obtain ⟨f, hf⟩ := Option.isSome_iff_exists.mp hfind
      refine ⟨f, hf, ?_⟩
      simp only [List.get?_map, hm, Option.map_some']
      rw [hf]
      rfl

/-- C2. Matcher readiness: under the record invariants of the upload state
(unique model ids, unique record keys, keys drawn from the model ids), the
readiness flag is true iff the computed match list is non-empty and every
configured variant has a loaded file set; and for every input the matcher
and the readiness flag are computed without throwing, returning the empty
match list whenever some variant has no files or an empty folder. -/
theorem C2_matcher_readiness (m0 : ModelConfig) (rest : List ModelConfig)
    (mf : FileRecord)
    (hids : ((m0 :: rest).map fun m => m.id).Nodup)
    (hkeys : (mf.map Prod.fst).Nodup)
    (hsub : ∀ k ∈ mf.map Prod.fst, k ∈ (m0 :: rest).map fun m => m.id) :
    (∃ ms b, matchesE (m0 :: rest) mf = some ms ∧
      isReadyE (m0 :: rest) mf = some b ∧
      (b = true ↔ ms ≠ [] ∧ ∀ m ∈ m0 :: rest, (mf.lookup m.id).isSome)) ∧
    ((∃ m ∈ m0 :: rest, jsIndex mf m.id = []) →
      matchesE (m0 :: rest) mf = some []) := by
  have hcount := record_count_iff (m0 :: rest) mf hids hkeys hsub
  constructor
  · by_cases hguard : mf.length < (m0 :: rest).length
    · refine ⟨[], false, by rw [matchesE, if_pos hguard], ?_, ?_⟩
      · rw [isReadyE, matchesE, if_pos hguard]
        rfl
      · simp
    · refine ⟨sortStrings (collectCommon (m0 :: rest) m0 mf [] (jsIndex mf m0.id)),
        decide (0 < (sortStrings (collectCommon (m0 :: rest) m0 mf []
          (jsIndex mf m0.id))).length) && (mf.length == (m0 :: rest).length),
        by rw [matchesE, if_neg hguard], ?_, ?_⟩
      · rw [isReadyE, matchesE, if_neg hguard]
        rfl
      · rw [Bool.and_eq_true, decide_eq_true_iff, beq_iff_eq]
        rw [hcount]
        constructor
        · rintro ⟨h1, h2⟩
          exact ⟨List.ne_nil_of_length_pos h1, h2⟩
        · rintro ⟨h1, h2⟩
          exact ⟨List.length_pos_of_ne_nil h1, h2⟩
  · rintro ⟨m, hm, hempty⟩
    by_cases hguard : mf.length < (m0 :: rest).length
    · rw [matchesE, if_pos hguard]
    · rw [matchesE, if_neg hguard]
      by_cases hid : m.id = m0.id
      · rw [hid] at hempty
        rw [hempty]
        rfl
      · have hnil : collectCommon (m0 :: rest) m0 mf [] (jsIndex mf m0.id) = [] := by
          rw [List.eq_nil_iff_forall_not_mem]
          intro x hx
          have hq := ((mem_collectCommon _ _ _ _ _ _).mp hx).2.1
          rw [existsInAll, List.all_eq_true] at hq
          have := hq m hm
          rw [hempty] at this
          simp only [List.any_nil, Bool.or_false, beq_iff_eq] at this
          exact hid this
        rw [hnil]
        rfl

/-- Witness for C1 at the end-to-end example of the spec: variants with
ids m1, m2 and files x.mp4 versus x.mov, y.mp4 give exactly one match
named x, and the built case pairs x.mp4 with x.mov. -/
theorem C1_matcher_correctness_witness :
    matchesE [⟨"m1", "Baseline", "#6366f1"⟩, ⟨"m2", "Experimental", "#ec4899"⟩]
      [("m1", ["x.mp4"]), ("m2", ["x.mov", "y.mp4"])] = some ["x"] ∧
    (["x"] : List String).Sorted (· ≤ ·) ∧ (["x"] : List String).Nodup ∧
    (buildQueue [⟨"m1", "Baseline", "#6366f1"⟩, ⟨"m2", "Experimental", "#ec4899"⟩]
      [("m1", ["x.mp4"]), ("m2", ["x.mov", "y.mp4"])] ["x"]).get? 0
      = some ⟨"case-0", "x",
          [⟨"m1", some "x.mp4", none, "x.mp4"⟩,
           ⟨"m2", some "x.mov", none, "x.mov"⟩]⟩ := by
  obtain ⟨ms, hms, hsort, hnodup, hmem, hqueue⟩ :=
    C1_matcher_correctness ⟨"m1", "Baseline", "#6366f1"⟩
      [⟨"m2", "Experimental", "#ec4899"⟩]
      [("m1", ["x.mp4"]), ("m2", ["x.mov", "y.mp4"])] (by decide) (by decide)
  have hval : ms = ["x"] := by
    have h2 := hms
    rw [show matchesE [⟨"m1", "Baseline", "#6366f1"⟩, ⟨"m2", "Experimental", "#ec4899"⟩]
      [("m1", ["x.mp4"]), ("m2", ["x.mov", "y.mp4"])] = some ["x"] from by decide] at h2
    exact (Option.some.inj h2).symm
  subst hval
  exact ⟨hms, hsort, hnodup, by decide⟩

/-- Witness for C2: at the example input the matcher is computed without
error and is ready; with an empty folder for the second variant it returns
the empty match list and is not ready. -/
theorem C2_matcher_readiness_witness :
    matchesE [⟨"m1", "Baseline", "#6366f1"⟩, ⟨"m2", "Experimental", "#ec4899"⟩]
      [("m1", ["x.mp4"]), ("m2", ["x.mov", "y.mp4"])] = some ["x"] ∧
    isReadyE [⟨"m1", "Baseline", "#6366f1"⟩, ⟨"m2", "Experimental", "#ec4899"⟩]
      [("m1", ["x.mp4"]), ("m2", ["x.mov", "y.mp4"])] = some true ∧
    matchesE [⟨"m1", "Baseline", "#6366f1"⟩, ⟨"m2", "Experimental", "#ec4899"⟩]
      [("m1", ["x.mp4"]), ("m2", [])] = some [] ∧
    isReadyE [⟨"m1", "Baseline", "#6366f1"⟩, ⟨"m2", "Experimental", "#ec4899"⟩]
      [("m1", ["x.mp4"]), ("m2", [])] = some false := by
  obtain ⟨-, hempty⟩ :=
    C2_matcher_readiness ⟨"m1", "Baseline", "#6366f1"⟩
      [⟨"m2", "Experimental", "#ec4899"⟩]
      [("m1", ["x.mp4"]), ("m2", [])] (by decide) (by decide) (by decide)
  refine ⟨by decide, by decide, ?_, by decide⟩
  exact hempty ⟨⟨"m2", "Experimental", "#ec4899"⟩, by decide, by decide⟩

/-! ## Helper lemmas: the stitcher -/

theorem loadAll_ok_eq (kind : String) :
    ∀ (pairs : List (VideoSource × Option (Nat × Nat))) (dims : List (Nat × Nat)),
      loadAll kind pairs = .ok dims → dims = pairs.filterMap Prod.snd := by
  intro pairs
  induction pairs with
  | nil =>
    intro dims h
    rw [loadAll] at h
    cases h
    rfl
  | cons p rest ih =>
    intro dims h
    match p with
    | (src, none) => rw [loadAll] at h; cases h
    | (src, some d) =>
      rw [loadAll] at h
      cases hrest : loadAll kind rest with
      | error e => rw [hrest] at h; cases h
      | ok ds =>
        rw [hrest] at h
        cases h
        rw [List.filterMap_cons]
        simp only [Option.some.injEq]
        exact congrArg (d :: ·) (ih ds hrest)

theorem loadAll_error_of_mem (kind : String)
    (pairs : List (VideoSource × Option (Nat × Nat))) (src : VideoSource)
    (h : (src, (none : Option (Nat × Nat))) ∈ pairs) :
    ∃ e, loadAll kind pairs = .error e := by
  induction pairs with
  | nil => cases h
  | cons p rest ih =>
    rcases List.mem_cons.mp h with rfl | h'
    · exact ⟨_, rfl⟩
    · match p with
      | (s, none) => exact ⟨_, rfl⟩
      | (s, some d) =>
        rcases ih h' with ⟨e, he⟩
        refine ⟨e, ?_⟩
        rw [loadAll, he]
        rfl

theorem mem_zip_of_get? {α β : Type} :
    ∀ (l1 : List α) (l2 : List β) (i : Nat) (a : α) (b : β),
      l1.get? i = some a → l2.get? i = some b → (a, b) ∈ l1.zip l2 := by
  intro l1
  induction l1 with
  | nil => intro l2 i a b h; simp at h
  | cons x xs ih =>
    intro l2 i a b h1 h2
    cases l2 with
    | nil => simp at h2
    | cons y ys =>
      cases i with
      | zero =>
        rw [List.get?_cons_zero] at h1 h2
        cases h1; cases h2
        exact List.mem_cons_self _ _
      | succ n =>
        rw [List.get?_cons_succ] at h1 h2
        exact List.mem_cons_of_mem _ (ih ys n a b h1 h2)

/-- C3 (amended). Image-composite geometry: every successful image
composite has width equal to the sum of the decoded natural widths and,
provided the maximum decoded natural height is positive, height equal to
that maximum. (When every decoded height is zero the code falls back to a
height of 720 via the JS expression Math.max(...) || 720, see the
counterexample.) -/
theorem C3_image_geometry (sources : List VideoSource) (models : List ModelConfig)
    (env : StitchEnv) (art : Artifact)
    (hok : (stitchMedia sources models MediaType.image env).result = Except.ok art)
    (hmax : 0 < ((loadedDims sources env).map Prod.snd).foldr Nat.max 0) :
    art.width = ((loadedDims sources env).map Prod.fst).sum ∧
    art.height = ((loadedDims sources env).map Prod.snd).foldr Nat.max 0 := by
  rw [stitchMedia] at hok
  by_cases hlen : sources.length = 0
  · rw [if_pos hlen] at hok; cases hok
  · rw [if_neg hlen] at hok
    cases hload : loadAll "image" (sources.zip env.loads) with
    | error e => rw [hload] at hok; cases hok
    | ok dims =>
      rw [hload] at hok
      have hdims : dims = loadedDims sources env := loadAll_ok_eq _ _ _ hload
      subst hdims
      simp only at hok
      by_cases hctx : env.ctxOk
      · rw [hctx] at hok
        simp only [Bool.not_true, Bool.false_eq_true, if_false] at hok
        by_cases hblob : env.blobOk
        · rw [hblob, if_pos rfl] at hok
          cases hok
          refine ⟨rfl, ?_⟩
          show (if ((loadedDims sources env).map Prod.snd).foldr Nat.max 0 = 0
            then 720 else ((loadedDims sources env).map Prod.snd).foldr Nat.max 0) = _
          rw [if_neg (Nat.pos_iff_ne_zero.mp hmax)]
        · simp only [hblob] at hok
          cases hok
      · rw [Bool.not_eq_true] at hctx
        rw [hctx] at hok
        simp only [Bool.not_false, if_true] at hok
        cases hok

/-- C3 counterexample. A successful image composite of two sources whose
decoded natural heights are both zero produces a canvas of height 720, not
the maximum height 0 the claim prescribes: the JS expression
Math.max(...heights) || 720 treats the zero maximum as falsy. -/
theorem C3_image_geometry_counterexample :
    (stitchMedia
      [⟨"m1", some "a.svg", none, "a.svg"⟩, ⟨"m2", some "b.svg", none, "b.svg"⟩]
      [⟨"m1", "Baseline", "#6366f1"⟩, ⟨"m2", "Experimental", "#ec4899"⟩]
      MediaType.image
      ⟨[some (100, 0), some (200, 0)], true, true, true, fun _ => true⟩).result
      = Except.ok ⟨300, 720, "png"⟩ ∧
    ((loadedDims
      [⟨"m1", some "a.svg", none, "a.svg"⟩, ⟨"m2", some "b.svg", none, "b.svg"⟩]
      ⟨[some (100, 0), some (200, 0)], true, true, true, fun _ => true⟩).map
        Prod.snd).foldr Nat.max 0 = 0 ∧
    (720 : Nat) ≠ 0 :=
  ⟨rfl, rfl, by decide⟩

/-- Witness for C3 at the example of the spec: sources of 100 by 50 and
200 by 50 compose into a 300 by 50 artifact. -/
theorem C3_image_geometry_witness :
    (stitchMedia
      [⟨"m1", some "a.png", none, "a.png"⟩, ⟨"m2", some "b.png", none, "b.png"⟩]
      [⟨"m1", "Baseline", "#6366f1"⟩, ⟨"m2", "Experimental", "#ec4899"⟩]
      MediaType.image
      ⟨[some (100, 50), some (200, 50)], true, true, true, fun _ => true⟩).result
      = Except.ok ⟨300, 50, "png"⟩ ∧
    (⟨300, 50, "png"⟩ : Artifact).width =
      ((loadedDims
        [⟨"m1", some "a.png", none, "a.png"⟩, ⟨"m2", some "b.png", none, "b.png"⟩]
        ⟨[some (100, 50), some (200, 50)], true, true, true, fun _ => true⟩).map
          Prod.fst).sum ∧
    (⟨300, 50, "png"⟩ : Artifact).height =
      ((loadedDims
        [⟨"m1", some "a.png", none, "a.png"⟩, ⟨"m2", some "b.png", none, "b.png"⟩]
        ⟨[some (100, 50), some (200, 50)], true, true, true, fun _ => true⟩).map
          Prod.snd).foldr Nat.max 0 :=
  ⟨rfl,
    C3_image_geometry
      [⟨"m1", some "a.png", none, "a.png"⟩, ⟨"m2", some "b.png", none, "b.png"⟩]
      [⟨"m1", "Baseline", "#6366f1"⟩, ⟨"m2", "Experimental", "#ec4899"⟩]
      ⟨[some (100, 50), some (200, 50)], true, true, true, fun _ => true⟩
      ⟨300, 50, "png"⟩ rfl (by decide)⟩

/-- C4. All-or-nothing composite: whenever the source list is empty, the
2d canvas context cannot be acquired, or any single source fails to
decode, the stitch settles as a rejection and no artifact is produced, in
both media modes. -/
theorem C4_all_or_nothing (sources : List VideoSource) (models : List ModelConfig)
    (mediaType : MediaType) (env : StitchEnv)
    (h : sources = [] ∨ env.ctxOk = false ∨
      ∃ i, i < sources.length ∧ env.loads.get? i = some none) :
    exceptIsError (stitchMedia sources models mediaType env).result = true := by
  have hloadCase : ∀ kind, sources.length ≠ 0 →
      (∃ e, loadAll kind (sources.zip env.loads) = .error e) ∨ env.ctxOk = false := by
    intro kind hlen
    rcases h with h1 | h2 | ⟨i, hi, hload⟩
    · exact absurd (by rw [h1]; rfl) hlen
    · exact Or.inr h2
    · cases hs : sources.get? i with
      | none => exact absurd (List.get?_eq_none.mp hs) (Nat.not_le.mpr hi)
      | some s =>
        exact Or.inl (loadAll_error_of_mem kind _ s
          (mem_zip_of_get? sources env.loads i s none hs hload))
  cases mediaType with
  | image =>
    rw [stitchMedia]
    by_cases hlen : sources.length = 0
    · rw [if_pos hlen]; rfl
    · rw [if_neg hlen]
      rcases hloadCase "image" hlen with ⟨e, he⟩ | hctx
      · rw [he]; rfl
      · cases hl : loadAll "image" (sources.zip env.loads) with
        | error e => rfl
        | ok dims =>
          simp only [hctx, Bool.not_false, if_true]
          rfl
  | video =>
    rw [stitchMedia]
    by_cases hlen : sources.length = 0
    · rw [if_pos hlen]; rfl
    · rw [if_neg hlen]
      rcases hloadCase "video" hlen with ⟨e, he⟩ | hctx
      · rw [he]; rfl
      · cases hl : loadAll "video" (sources.zip env.loads) with
        | error e => rfl
        | ok dims =>
          simp only [hctx, Bool.not_false, if_true]
          rfl

/-- Witness for C4: a single-source call whose only source fails to
decode is rejected. -/
theorem C4_all_or_nothing_witness :
    exceptIsError (stitchMedia [⟨"m1", some "a.mp4", none, "a.mp4"⟩]
      [⟨"m1", "Baseline", "#6366f1"⟩] MediaType.video
      ⟨[none], true, true, true, fun _ => true⟩).result = true :=
  C4_all_or_nothing [⟨"m1", some "a.mp4", none, "a.mp4"⟩]
    [⟨"m1", "Baseline", "#6366f1"⟩] MediaType.video
    ⟨[none], true, true, true, fun _ => true⟩
    (Or.inr (Or.inr ⟨0, by decide, rfl⟩))

/-- C5 evaluation (the code contradicts the resource-discipline claim):
in image mode with two file-backed sources where the second fails to
decode, the call rejects with the load error, object URLs were created for
both sources (indices 0 and 1), and none of them is revoked: the code
revokes object URLs only inside the success callbacks. -/
theorem C5_object_url_leak_on_failure :
    (stitchMedia
      [⟨"m1", some "a.png", none, "a.png"⟩, ⟨"m2", some "b.png", none, "b.png"⟩]
      [⟨"m1", "Baseline", "#6366f1"⟩, ⟨"m2", "Experimental", "#ec4899"⟩]
      MediaType.image
      ⟨[some (100, 50), none], true, true, true, fun _ => true⟩).result
      = Except.error "Failed to load image: b.png" ∧
    (stitchMedia
      [⟨"m1", some "a.png", none, "a.png"⟩, ⟨"m2", some "b.png", none, "b.png"⟩]
      [⟨"m1", "Baseline", "#6366f1"⟩, ⟨"m2", "Experimental", "#ec4899"⟩]
      MediaType.image
      ⟨[some (100, 50), none], true, true, true, fun _ => true⟩).created = [0, 1] ∧
    (stitchMedia
      [⟨"m1", some "a.png", none, "a.png"⟩, ⟨"m2", some "b.png", none, "b.png"⟩]
      [⟨"m1", "Baseline", "#6366f1"⟩, ⟨"m2", "Experimental", "#ec4899"⟩]
      MediaType.image
      ⟨[some (100, 50), none], true, true, true, fun _ => true⟩).revoked = [] :=
  ⟨rfl, rfl, rfl⟩

/-! ## Helper lemmas: the batch exporter -/

theorem exceptIsError_false_ok (e : Except String Artifact)
    (h : exceptIsError e = false) : ∃ a, e = .ok a := by
  cases e with
  | error msg => simp [exceptIsError] at h
  | ok a => exact ⟨a, rfl⟩

theorem batchLoop_first_failure (models : List ModelConfig) (mediaType : MediaType)
    (queue : List TestCase) (envs : Nat → StitchEnv) :
    ∀ (cs : List VoteResult) (j i total : Nat) (prog acc : List String),
      j < cs.length →
      (∀ r ∈ cs, (queue.find? fun c => c.id == r.caseId).isSome) →
      (∃ r tc, cs.get? j = some r ∧
        (queue.find? fun c => c.id == r.caseId) = some tc ∧
        exceptIsError (stitchMedia tc.sources models mediaType (envs (i + j))).result
          = true) →
      (∀ k, k < j → ∃ r tc, cs.get? k = some r ∧
        (queue.find? fun c => c.id == r.caseId) = some tc ∧
        exceptIsError (stitchMedia tc.sources models mediaType (envs (i + k))).result
          = false) →
      (batchLoop models mediaType queue envs cs i total prog acc).downloaded = none ∧
      (batchLoop models mediaType queue envs cs i total prog acc).alerts = 1 ∧
      (batchLoop models mediaType queue envs cs i total prog acc).progress.length
        = prog.length + (j + 1) ∧
      (batchLoop models mediaType queue envs cs i total prog acc).entries.length
        = acc.length + j := by
  intro cs
  induction cs with
  | nil =>
    intro j i total prog acc hj
    simp at hj
  | cons r rest ih =>
    intro j i total prog acc hj hfound hfail hok
    obtain ⟨tc, htc⟩ := Option.isSome_iff_exists.mp
      (hfound r (List.mem_cons_self r rest))
    cases j with
    | zero =>
      obtain ⟨r', tc', hr', htc', herr⟩ := hfail
      rw [List.get?_cons_zero] at hr'
      cases hr'
      rw [htc] at htc'
      cases htc'
      cases hres : (stitchMedia tc.sources models mediaType (envs i)).result with
      | error e =>
        simp [batchLoop, htc, hres]
      | ok a =>
        rw [show i + 0 = i from rfl, hres] at herr
        simp [exceptIsError] at herr
    | succ j' =>
      obtain ⟨r0, tc0, hr0, htc0, hok0⟩ := hok 0 (Nat.succ_pos j')
      rw [List.get?_cons_zero] at hr0
      cases hr0
      rw [htc] at htc0
      cases htc0
      rw [show i + 0 = i from rfl] at hok0
      obtain ⟨a, ha⟩ := exceptIsError_false_ok _ hok0
      have hfail' : ∃ r tc, rest.get? j' = some r ∧
          (queue.find? fun c => c.id == r.caseId) = some tc ∧
          exceptIsError
            (stitchMedia tc.sources models mediaType (envs (i + 1 + j'))).result
            = true := by
        obtain ⟨r', tc', h1, h2, h3⟩ := hfail
        rw [List.get?_cons_succ] at h1
        refine ⟨r', tc', h1, h2, ?_⟩
        rw [show i + 1 + j' = i + (j' + 1) from by omega]
        exact h3
      have hok' : ∀ k, k < j' → ∃ r tc, rest.get? k = some r ∧
          (queue.find? fun c => c.id == r.caseId) = some tc ∧
          exceptIsError
            (stitchMedia tc.sources models mediaType (envs (i + 1 + k))).result
            = false := by
        intro k hk
        obtain ⟨r', tc', h1, h2, h3⟩ := hok (k + 1) (Nat.succ_lt_succ hk)
        rw [List.get?_cons_succ] at h1
        refine ⟨r', tc', h1, h2, ?_⟩
        rw [show i + 1 + k = i + (k + 1) from by omega]
        exact h3
      have H := ih j' (i + 1) total
        (prog ++ ["Processing " ++ toString (i + 1) ++ "/" ++ toString total
          ++ ": " ++ tc.name])
        (acc ++ [getBaseName tc.name ++ "_comparison." ++ a.extension])
        (Nat.lt_of_succ_lt_succ hj)
        (fun r' hr' => hfound r' (List.mem_cons_of_mem r hr'))
        hfail' hok'
      simp only [batchLoop, htc, ha]
      refine ⟨H.1, H.2.1, ?_, ?_⟩
      · rw [H.2.2.1]
        simp only [List.length_append, List.length_cons, List.length_nil]
        omega
      · rw [H.2.2.2]
        simp only [List.length_append, List.length_cons, List.length_nil]
        omega

/-- C6. Batch atomicity: for a batch export over the representative cases,
processed sequentially with one progress notification per case before its
composite, if the composite of the case at position j rejects while all
earlier ones succeed, then no archive is offered for download, exactly one
failure notification is shown, no case after position j is processed (the
progress trace has exactly j plus one messages) and only the j artifacts
of earlier cases ever entered the in-memory zip, which is discarded. -/
theorem C6_batch_atomicity (voteHistory : List VoteResult) (queue : List TestCase)
    (models : List ModelConfig) (mediaType : MediaType) (envs : Nat → StitchEnv)
    (j : Nat)
    (hj : j < (voteHistory.filter fun r => r.isRepresentative).length)
    (hfound : ∀ r ∈ voteHistory.filter fun r => r.isRepresentative,
      (queue.find? fun c => c.id == r.caseId).isSome)
    (hfail : ∃ r tc,
      (voteHistory.filter fun r => r.isRepresentative).get? j = some r ∧
      (queue.find? fun c => c.id == r.caseId) = some tc ∧
      exceptIsError (stitchMedia tc.sources models mediaType (envs j)).result = true)
    (hok : ∀ k, k < j → ∃ r tc,
      (voteHistory.filter fun r => r.isRepresentative).get? k = some r ∧
      (queue.find? fun c => c.id == r.caseId) = some tc ∧
      exceptIsError (stitchMedia tc.sources models mediaType (envs k)).result
        = false) :
    (handleBatchExportZip voteHistory queue models mediaType envs).downloaded
      = none ∧
    (handleBatchExportZip voteHistory queue models mediaType envs).alerts = 1 ∧
    (handleBatchExportZip voteHistory queue models mediaType envs).progress.length
      = j + 1 ∧
    (handleBatchExportZip voteHistory queue models mediaType envs).entries.length
      = j := by
  have hne : ¬ (voteHistory.filter fun r => r.isRepresentative).length = 0 := by
    omega
  have hfail' : ∃ r tc,
      (voteHistory.filter fun r => r.isRepresentative).get? j = some r ∧
      (queue.find? fun c => c.id == r.caseId) = some tc ∧
      exceptIsError (stitchMedia tc.sources models mediaType (envs (0 + j))).result
        = true := by
    simpa [Nat.zero_add] using hfail
  have hok' : ∀ k, k < j → ∃ r tc,
      (voteHistory.filter fun r => r.isRepresentative).get? k = some r ∧
      (queue.find? fun c => c.id == r.caseId) = some tc ∧
      exceptIsError (stitchMedia tc.sources models mediaType (envs (0 + k))).result
        = false := by
    intro k hk
    simpa [Nat.zero_add] using hok k hk
  have H := batchLoop_first_failure models mediaType queue envs
    (voteHistory.filter fun r => r.isRepresentative) j 0
    (voteHistory.filter fun r => r.isRepresentative).length [] []
    hj hfound hfail' hok'
  simp only [handleBatchExportZip]
  rw [if_neg hne]
  exact ⟨H.1, H.2.1, by rw [H.2.2.1]; simp, by rw [H.2.2.2]; simp⟩

/-- Witness for C6: three representative cases where the second composite
fails; nothing is downloaded, one alert is shown, two progress messages
are emitted and one orphaned artifact sits in the discarded zip. -/
theorem C6_batch_atomicity_witness :
    (handleBatchExportZip
      [⟨"case-0", "x", 0, "m1", [], none, true⟩,
       ⟨"case-1", "y", 0, "m1", [], none, true⟩,
       ⟨"case-2", "z", 0, "m1", [], none, true⟩]
      [⟨"case-0", "x", [⟨"m1", some "x.png", none, "x.png"⟩]⟩,
       ⟨"case-1", "y", [⟨"m1", some "y.png", none, "y.png"⟩]⟩,
       ⟨"case-2", "z", [⟨"m1", some "z.png", none, "z.png"⟩]⟩]
      [⟨"m1", "Baseline", "#6366f1"⟩] MediaType.image
      (fun i => if i = 1 then ⟨[none], true, true, true, fun _ => true⟩
        else ⟨[some (10, 10)], true, true, true, fun _ => true⟩)).downloaded
      = none ∧
    (handleBatchExportZip
      [⟨"case-0", "x", 0, "m1", [], none, true⟩,
       ⟨"case-1", "y", 0, "m1", [], none, true⟩,
       ⟨"case-2", "z", 0, "m1", [], none, true⟩]
      [⟨"case-0", "x", [⟨"m1", some "x.png", none, "x.png"⟩]⟩,
       ⟨"case-1", "y", [⟨"m1", some "y.png", none, "y.png"⟩]⟩,
       ⟨"case-2", "z", [⟨"m1", some "z.png", none, "z.png"⟩]⟩]
      [⟨"m1", "Baseline", "#6366f1"⟩] MediaType.image
      (fun i => if i = 1 then ⟨[none], true, true, true, fun _ => true⟩
        else ⟨[some (10, 10)], true, true, true, fun _ => true⟩)).alerts = 1 ∧
    (handleBatchExportZip
      [⟨"case-0", "x", 0, "m1", [], none, true⟩,
       ⟨"case-1", "y", 0, "m1", [], none, true⟩,
       ⟨"case-2", "z", 0, "m1", [], none, true⟩]
      [⟨"case-0", "x", [⟨"m1", some "x.png", none, "x.png"⟩]⟩,
       ⟨"case-1", "y", [⟨"m1", some "y.png", none, "y.png"⟩]⟩,
       ⟨"case-2", "z", [⟨"m1", some "z.png", none, "z.png"⟩]⟩]
      [⟨"m1", "Baseline", "#6366f1"⟩] MediaType.image
      (fun i => if i = 1 then ⟨[none], true, true, true, fun _ => true⟩
        else ⟨[some (10, 10)], true, true, true, fun _ => true⟩)).progress.length
      = 2 ∧
    (handleBatchExportZip
      [⟨"case-0", "x", 0, "m1", [], none, true⟩,
       ⟨"case-1", "y", 0, "m1", [], none, true⟩,
       ⟨"case-2", "z", 0, "m1", [], none, true⟩]
      [⟨"case-0", "x", [⟨"m1", some "x.png", none, "x.png"⟩]⟩,
       ⟨"case-1", "y", [⟨"m1", some "y.png", none, "y.png"⟩]⟩,
       ⟨"case-2", "z", [⟨"m1", some "z.png", none, "z.png"⟩]⟩]
      [⟨"m1", "Baseline", "#6366f1"⟩] MediaType.image
      (fun i => if i = 1 then ⟨[none], true, true, true, fun _ => true⟩
        else ⟨[some (10, 10)], true, true, true, fun _ => true⟩)).entries.length
      = 1 :=
  C6_batch_atomicity
    [⟨"case-0", "x", 0, "m1", [], none, true⟩,
     ⟨"case-1", "y", 0, "m1", [], none, true⟩,
     ⟨"case-2", "z", 0, "m1", [], none, true⟩]
    [⟨"case-0", "x", [⟨"m1", some "x.png", none, "x.png"⟩]⟩,
     ⟨"case-1", "y", [⟨"m1", some "y.png", none, "y.png"⟩]⟩,
     ⟨"case-2", "z", [⟨"m1", some "z.png", none, "z.png"⟩]⟩]
    [⟨"m1", "Baseline", "#6366f1"⟩] MediaType.image
    (fun i => if i = 1 then ⟨[none], true, true, true, fun _ => true⟩
      else ⟨[some (10, 10)], true, true, true, fun _ => true⟩)
    1 (by decide) (by decide)
    ⟨⟨"case-1", "y", 0, "m1", [], none, true⟩,
     ⟨"case-1", "y", [⟨"m1", some "y.png", none, "y.png"⟩]⟩, rfl, rfl, by decide⟩
    (by
      intro k hk
      have hk0 : k = 0 := by omega
      subst hk0
      exact ⟨⟨"case-0", "x", 0, "m1", [], none, true⟩,
        ⟨"case-0", "x", [⟨"m1", some "x.png", none, "x.png"⟩]⟩, rfl, rfl, by decide⟩)

/-- C7. Recording termination: along any end-of-stream trace whose first
frame with every source ended is frame n, the frame loop keeps
re-scheduling itself (recorder still recording, frame counter advancing,
recorder never stopped) through every frame up to n, and the drawn frame
at n stops the recorder, finalizing the artifact; the recording is never
finalized while some source video has not ended. -/
theorem C7_recording_termination (endedAt : Nat → List Bool) (n : Nat)
    (hn : allEnded (endedAt n) = true)
    (hmin : ∀ m, m < n → allEnded (endedAt m) = false) :
    (∀ m, m ≤ n → runFrames endedAt m = ⟨true, false, m⟩) ∧
    runFrames endedAt (n + 1) = ⟨false, true, n⟩ := by
  have key : ∀ m, m ≤ n → runFrames endedAt m = ⟨true, false, m⟩ := by
    intro m
    induction m with
    | zero => intro _; rfl
    | succ k ih =>
      intro hk
      have hk' : k ≤ n := Nat.le_of_succ_le hk
      have hkn : k < n := Nat.lt_of_succ_le hk
      rw [runFrames, ih hk', drawFrameStep]
      simp [hmin k hkn]
  refine ⟨key, ?_⟩
  rw [runFrames, key n (Nat.le_refl n), drawFrameStep]
  simp [hn]

/-- Witness for C7: two sources ending at frames 1 and 2; the loop is
still redrawing at frame 2 and the recorder stops on the drawn frame 2. -/
theorem C7_recording_termination_witness :
    runFrames (fun k => [decide (1 ≤ k), decide (2 ≤ k)]) 2 = ⟨true, false, 2⟩ ∧
    runFrames (fun k => [decide (1 ≤ k), decide (2 ≤ k)]) 3 = ⟨false, true, 2⟩ :=
  ⟨(C7_recording_termination (fun k => [decide (1 ≤ k), decide (2 ≤ k)]) 2
      (by decide) (by decide)).1 2 (by decide),
   (C7_recording_termination (fun k => [decide (1 ≤ k), decide (2 ≤ k)]) 2
      (by decide) (by decide)).2⟩

/-- C8 counterexample. The seek handler performs no clamping: requesting
time 15 against duration 10 broadcasts 15 to every element and reports 15,
while the claimed value clamp(15, 0, 10) is 10. -/
theorem C8_seek_counterexample :
    (handleSeek MediaType.video 15 ⟨0, [0, 0]⟩).currentTime = 15 ∧
    (handleSeek MediaType.video 15 ⟨0, [0, 0]⟩).videoTimes = [15, 15] ∧
    clampTime 15 0 10 = 10 ∧ (15 : Rat) ≠ 10 := by
  refine ⟨rfl, rfl, ?_, by decide⟩
  show max 0 (min (15 : Rat) 10) = 10
  rw [min_comm]
  norm_num

/-- C8 (amended). Seek broadcasting: the handler broadcasts the raw
requested time t to every media element and reports t unchanged; whenever
t already lies inside the interval from 0 to the duration — which the
range input enforces once the duration is known — this equals
clamp(t, 0, duration), so the reported time after the seek is exactly the
clamped request. Outside that interval the unclamped t is broadcast. -/
theorem C8_seek_clamped_in_range (t duration : Rat) (s : ArenaPlayback)
    (h0 : 0 ≤ t) (hd : t ≤ duration) :
    (handleSeek MediaType.video t s).currentTime = clampTime t 0 duration ∧
    (handleSeek MediaType.video t s).videoTimes
      = s.videoTimes.map fun _ => clampTime t 0 duration := by
  have hc : clampTime t 0 duration = t := by
    rw [clampTime, min_eq_left hd, max_eq_right h0]
  rw [hc]
  exact ⟨rfl, rfl⟩

/-- Witness for C8 amended, at t = 3 against duration 10. -/
theorem C8_seek_clamped_in_range_witness :
    (handleSeek MediaType.video 3 ⟨0, [0, 0]⟩).currentTime = clampTime 3 0 10 ∧
    (handleSeek MediaType.video 3 ⟨0, [0, 0]⟩).videoTimes
      = ([0, 0] : List Rat).map fun _ => clampTime 3 0 10 :=
  C8_seek_clamped_in_range 3 10 ⟨0, [0, 0]⟩ (by norm_num) (by norm_num)

/-- C9 evaluation (the code contradicts the uniform-shuffle claim): under
the fair-coin model of the comparator Math.random() - 0.5 with the
insertion sort engines use for short arrays, counting over the eight
equally likely coin streams of length three for N = 3 variants, variant 0
lands in position 0 on 3 of 8 streams while variant 2 lands there on only
2 of 8 — the positions are structurally biased and no variant attains the
claimed probability 1/3 (3 times any stream count cannot equal 8). -/
theorem C9_blind_shuffle_biased :
    ((allStreams 3).countP fun cs => (blindShuffle cs [0, 1, 2]).headD 9 == 0) = 3 ∧
    ((allStreams 3).countP fun cs => (blindShuffle cs [0, 1, 2]).headD 9 == 2) = 2 ∧
    (allStreams 3).length = 8 ∧
    (3 : Nat) ≠ 2 ∧ 3 * 3 ≠ 8 ∧ 3 * 2 ≠ 8 := by
  decide

/-- C10. Variant-count invariant: the setup screen starts with 2 models,
addModel is the identity at MAX_MODELS entries, removeModel is the
identity at MIN_MODELS entries, and the model list reachable by any
sequence of setup operations always has between MIN_MODELS = 2 and
MAX_MODELS = 5 entries inclusive. -/
theorem C10_model_count_invariant :
    initialModels.length = 2 ∧
    (∀ ms now, ms.length = MAX_MODELS → addModel ms now = ms) ∧
    (∀ ms i, ms.length = MIN_MODELS → removeModel ms i = ms) ∧
    (∀ ops, MIN_MODELS ≤ (applyOps ops).length ∧
      (applyOps ops).length ≤ MAX_MODELS) := by
  refine ⟨rfl, ?_, ?_, ?_⟩
  · intro ms now h
    rw [addModel, if_neg]
    rw [h]
    exact Nat.lt_irrefl MAX_MODELS
  · intro ms i h
    rw [removeModel, if_neg]
    rw [h]
    exact Nat.lt_irrefl MIN_MODELS
  · have step : ∀ ms op, MIN_MODELS ≤ ms.length → ms.length ≤ MAX_MODELS →
        MIN_MODELS ≤ (applyOp ms op).length ∧ (applyOp ms op).length ≤ MAX_MODELS := by
      intro ms op h1 h2
      cases op with
      | add now =>
        rw [applyOp, addModel]
        by_cases h : ms.length < MAX_MODELS
        · rw [if_pos h]
          rw [List.length_append, List.length_cons, List.length_nil]
          constructor <;> omega
        · rw [if_neg h]
          exact ⟨h1, h2⟩
      | remove i =>
        rw [applyOp, removeModel]
        by_cases h : MIN_MODELS < ms.length
        · rw [if_pos h]
          rw [List.length_append, List.length_take, List.length_drop]
          constructor <;> omega
        · rw [if_neg h]
          exact ⟨h1, h2⟩
      | rename i n =>
        rw [applyOp, updateModelName]
        cases hget : ms.get? i with
        | none => exact ⟨h1, h2⟩
        | some m =>
          rw [List.length_set]
          exact ⟨h1, h2⟩
    intro ops
    have general : ∀ ms, MIN_MODELS ≤ ms.length → ms.length ≤ MAX_MODELS →
        MIN_MODELS ≤ (ops.foldl applyOp ms).length ∧
        (ops.foldl applyOp ms).length ≤ MAX_MODELS := by
      induction ops with
      | nil => intro ms h1 h2; exact ⟨h1, h2⟩
      | cons op rest ih =>
        intro ms h1 h2
        have h := step ms op h1 h2
        exact ih _ h.1 h.2
    exact general initialModels (by decide) (by decide)

/-- Witness for C10: addModel leaves a five-entry list unchanged,
removeModel leaves the initial two-entry list unchanged, and one concrete
operation sequence stays within bounds. -/
theorem C10_model_count_invariant_witness :
    addModel (applyOps [SetupOp.add 1, SetupOp.add 2, SetupOp.add 3]) 9
      = applyOps [SetupOp.add 1, SetupOp.add 2, SetupOp.add 3] ∧
    removeModel initialModels 0 = initialModels ∧
    MIN_MODELS ≤ (applyOps [SetupOp.remove 0]).length ∧
    (applyOps [SetupOp.remove 0]).length ≤ MAX_MODELS :=
  ⟨C10_model_count_invariant.2.1 _ 9 (by decide),
   C10_model_count_invariant.2.2.1 _ 0 (by decide),
   (C10_model_count_invariant.2.2.2 [SetupOp.remove 0]).1,
   (C10_model_count_invariant.2.2.2 [SetupOp.remove 0]).2⟩
